import Mathlib

/-
Shallow embedding of the adaptive extraction engine of
src/jpx_automated_pipeline.py (class AdaptiveJTMDExtractor).

Modelling conventions:
* A spreadsheet cell is `Cell`: `Cell.na` stands for a NaN/None cell
  (anything with `pd.isna(value)` true or `value is None`), and `Cell.str s`
  stands for any other raw value, carried as its Python `str()` rendering.
* Python strings are Lean `String`s; the handful of Python string
  operations the extractor uses (`.lower()`, `.strip()`, `.startswith`,
  substring test `in`, `re.search`, lexicographic `sorted`) are modelled by
  executable functions on `List Char` below, restricted to ASCII exactly as
  they behave on the ASCII file names and codes this program manipulates.
* Python dicts are association lists in insertion order; dict assignment is
  `dictInsert` (replace the binding if the key is present, else append) and
  `dict.update` is `dictUpdate` (left fold of assignments).
* `datetime.now()` is an external input, passed in as the `now` / `stamp`
  string parameters.
-/

namespace JTMD

/-- A raw spreadsheet cell: `na` is a NaN/None cell, `str s` any other raw
value carried as its `str()` rendering. -/
inductive Cell where
  | na : Cell
  | str : String → Cell
deriving DecidableEq

/-- One sheet of one workbook: `df.values.tolist()`, a row-major grid. -/
abbrev Grid := List (List Cell)

/-- ASCII lower-casing of one character, as `str.lower` acts on ASCII. -/
def charLower (c : Char) : Char :=
  if 65 ≤ c.toNat ∧ c.toNat ≤ 90 then Char.ofNat (c.toNat + 32) else c

/-- ASCII model of Python `s.lower()`. -/
def lowerList (cs : List Char) : List Char := cs.map charLower

/-- ASCII whitespace, the characters `str.strip()` removes on ASCII input. -/
def isSpaceChar (c : Char) : Bool :=
  c = ' ' || c = '\t' || c = '\n' || c = '\r'

/-- Model of Python `s.strip()`: drop whitespace from both ends. -/
def trimChars (cs : List Char) : List Char :=
  ((cs.dropWhile isSpaceChar).reverse.dropWhile isSpaceChar).reverse

/-- String-level `strip()`. -/
def strTrim (s : String) : String := ⟨trimChars s.data⟩

/-- ASCII decimal digit, the characters `\d` matches on ASCII input. -/
def isDigitChar (c : Char) : Bool :=
  48 ≤ c.toNat && c.toNat ≤ 57

/-- Model of Python substring containment `pat in s`. -/
def containsToken (s pat : List Char) : Bool :=
  match s with
  | [] => pat.isEmpty
  | _ :: rest => pat.isPrefixOf s || containsToken rest pat

/-- Code-point lexicographic `≤` on character lists: how Python compares
the `"YYYY-MM"` period strings when `sorted` orders `all_data.items()`. -/
def lexLe : List Char → List Char → Bool
  | [], _ => true
  | _ :: _, [] => false
  | a :: as, b :: bs =>
      if a.toNat < b.toNat then true
      else if b.toNat < a.toNat then false
      else lexLe as bs

/-- The two sheet families; `process_excel_file` derives one per file. -/
inductive AssetType where
  | ETF : AssetType
  | REIT : AssetType
deriving DecidableEq, Fintype

/-- The string `sheet_type.upper()` used to build code names. -/
def AssetType.code : AssetType → String
  | .ETF => "ETF"
  | .REIT => "REIT"

/-- The fourteen trader categories keyed in `_initialize_category_structure`. -/
inductive Cat where
  | PROP | BROKER | TOT | INST | INDIV | FOR | SECCOS
  | INVTRUST | BUSCORP | OTHINST | INSTFIN | INS | BK | OTHERFIN
deriving DecidableEq, Fintype

/-- The dictionary key of each category in `category_structure`. -/
def Cat.key : Cat → String
  | .PROP => "PROP" | .BROKER => "BROKER" | .TOT => "TOT" | .INST => "INST"
  | .INDIV => "INDIV" | .FOR => "FOR" | .SECCOS => "SECCOS"
  | .INVTRUST => "INVTRUST" | .BUSCORP => "BUSCORP" | .OTHINST => "OTHINST"
  | .INSTFIN => "INSTFIN" | .INS => "INS" | .BK => "BK"
  | .OTHERFIN => "OTHERFIN"

/-- The `base_row` of each category in `_initialize_category_structure`. -/
def Cat.baseRow : Cat → Nat
  | .PROP => 13 | .BROKER => 16 | .TOT => 19 | .INST => 24
  | .INDIV => 27 | .FOR => 30 | .SECCOS => 33 | .INVTRUST => 38
  | .BUSCORP => 41 | .OTHINST => 44 | .INSTFIN => 47 | .INS => 52
  | .BK => 55 | .OTHERFIN => 58

/-- The `search_offsets` of each category; every entry is `[0, 1, 2]`. -/
def Cat.searchOffsets : Cat → List Nat := fun _ => [0, 1, 2]

/-- Insertion order of the keys of `category_structure`, the order
`_extract_from_sheet` iterates the balance categories in. -/
def categoryOrder : List Cat :=
  [.PROP, .BROKER, .TOT, .INST, .INDIV, .FOR, .SECCOS,
   .INVTRUST, .BUSCORP, .OTHINST, .INSTFIN, .INS, .BK, .OTHERFIN]

/-- The catalog `_initialize_column_mapping`: indicator code paired with its
description, in the source's insertion order. -/
def column_mapping : List (String × String) :=
  [("JTMD.ETF.BAL.PROP.M", "ETF, Balance, Proprietary"),
   ("JTMD.ETF.BAL.BROKER.M", "ETF, Balance, Brokerage"),
   ("JTMD.ETF.BAL.TOT.M", "ETF, Balance, Total"),
   ("JTMD.ETF.BAL.INST.M", "ETF, Balance, Institutions"),
   ("JTMD.ETF.BAL.INDIV.M", "ETF, Balance, Individuals"),
   ("JTMD.ETF.BAL.FOR.M", "ETF, Balance, Foreigners"),
   ("JTMD.ETF.BAL.SECCOS.M", "ETF, Balance, Securities Cos."),
   ("JTMD.ETF.BAL.INVTRUST.M", "ETF, Balance, Investment Trusts"),
   ("JTMD.ETF.BAL.BUSCORP.M", "ETF, Balance, Business Cos."),
   ("JTMD.ETF.BAL.OTHINST.M", "ETF, Balance, Other Cos."),
   ("JTMD.ETF.BAL.INSTFIN.M", "ETF, Balance, Financial Institutions"),
   ("JTMD.ETF.BAL.INS.M", "ETF, Balance, Life/Non-Life Insurance"),
   ("JTMD.ETF.BAL.BK.M", "ETF, Balance, Banks"),
   ("JTMD.ETF.BAL.OTHERFIN.M", "ETF, Balance, Other Financials"),
   ("JTMD.ETF.SAL.PROP.M", "ETF, Sales, Proprietary"),
   ("JTMD.ETF.SAL.BROKER.M", "ETF, Sales, Brokerage"),
   ("JTMD.ETF.SAL.TOT.M", "ETF, Sales, Total"),
   ("JTMD.ETF.SAL.INST.M", "ETF, Sales, Institutions"),
   ("JTMD.ETF.SAL.INDIV.M", "ETF, Sales, Individuals"),
   ("JTMD.ETF.SAL.FOR.M", "ETF, Sales, Foreigners"),
   ("JTMD.ETF.SAL.SECCOS.M", "ETF, Sales, Securities Cos."),
   ("JTMD.ETF.SAL.INVTRUST.M", "ETF, Sales, Investment Trusts"),
   ("JTMD.ETF.SAL.BUSCORP.M", "ETF, Sales, Business Cos."),
   ("JTMD.ETF.SAL.OTHINST.M", "ETF, Sales, Other Cos."),
   ("JTMD.ETF.SAL.INSTFIN.M", "ETF, Sales, Financial Institutions"),
   ("JTMD.ETF.SAL.INS.M", "ETF, Sales, Life/Non-Life Insurance"),
   ("JTMD.ETF.SAL.BK.M", "ETF, Sales, Banks"),
   ("JTMD.ETF.SAL.OTHERFIN.M", "ETF, Sales, Other Financials"),
   ("JTMD.ETF.PURCH.PROP.M", "ETF, Purchases, Proprietary"),
   ("JTMD.ETF.PURCH.BROKER.M", "ETF, Purchases, Brokerage"),
   ("JTMD.ETF.PURCH.TOT.M", "ETF, Purchases, Total"),
   ("JTMD.ETF.PURCH.INST.M", "ETF, Purchases, Institutions"),
   ("JTMD.ETF.PURCH.INDIV.M", "ETF, Purchases, Individuals"),
   ("JTMD.ETF.PURCH.FOR.M", "ETF, Purchases, Foreigners"),
   ("JTMD.ETF.PURCH.SECCOS.M", "ETF, Purchases, Securities Cos."),
   ("JTMD.ETF.PURCH.INVTRUST.M", "ETF, Purchases, Investment Trusts"),
   ("JTMD.ETF.PURCH.BUSCORP.M", "ETF, Purchases, Business Cos."),
   ("JTMD.ETF.PURCH.OTHINST.M", "ETF, Purchases, Other Cos."),
   ("JTMD.ETF.PURCH.INSTFIN.M", "ETF, Purchases, Financial Institutions"),
   ("JTMD.ETF.PURCH.INS.M", "ETF, Purchases, Life/Non-Life Insurance"),
   ("JTMD.ETF.PURCH.BK.M", "ETF, Purchases, Banks"),
   ("JTMD.ETF.PURCH.OTHERFIN.M", "ETF, Purchases, Other Financials"),
   ("JTMD.REIT.BAL.PROP.M", "REIT, Balance, Proprietary"),
   ("JTMD.REIT.BAL.BROKER.M", "REIT, Balance, Brokerage"),
   ("JTMD.REIT.BAL.TOT.M", "REIT, Balance, Total"),
   ("JTMD.REIT.BAL.INST.M", "REIT, Balance, Institutions"),
   ("JTMD.REIT.BAL.INDIV.M", "REIT, Balance, Individuals"),
   ("JTMD.REIT.BAL.FOR.M", "REIT, Balance, Foreigners"),
   ("JTMD.REIT.BAL.SECCOS.M", "REIT, Balance, Securities Cos."),
   ("JTMD.REIT.BAL.INVTRUST.M", "REIT, Balance, Investment Trusts"),
   ("JTMD.REIT.BAL.BUSCORP.M", "REIT, Balance, Business Cos."),
   ("JTMD.REIT.BAL.OTHINST.M", "REIT, Balance, Other Cos."),
   ("JTMD.REIT.BAL.INSTFIN.M", "REIT, Balance, Financial Institutions"),
   ("JTMD.REIT.BAL.INS.M", "REIT, Balance, Life/Non-Life Insurance"),
   ("JTMD.REIT.BAL.BK.M", "REIT, Balance, Banks"),
   ("JTMD.REIT.BAL.OTHERFIN.M", "REIT, Balance, Other Financials"),
   ("JTMD.REIT.SAL.PROP.M", "REIT, Sales, Proprietary"),
   ("JTMD.REIT.SAL.BROKER.M", "REIT, Sales, Brokerage"),
   ("JTMD.REIT.SAL.TOT.M", "REIT, Sales, Total"),
   ("JTMD.REIT.SAL.INST.M", "REIT, Sales, Institutions"),
   ("JTMD.REIT.SAL.INDIV.M", "REIT, Sales, Individuals"),
   ("JTMD.REIT.SAL.FOR.M", "REIT, Sales, Foreigners"),
   ("JTMD.REIT.SAL.SECCOS.M", "REIT, Sales, Securities Cos."),
   ("JTMD.REIT.SAL.INVTRUST.M", "REIT, Sales, Investment Trusts"),
   ("JTMD.REIT.SAL.BUSCORP.M", "REIT, Sales, Business Cos."),
   ("JTMD.REIT.SAL.OTHINST.M", "REIT, Sales, Other Cos."),
   ("JTMD.REIT.SAL.INSTFIN.M", "REIT, Sales, Financial Institutions"),
   ("JTMD.REIT.SAL.INS.M", "REIT, Sales, Life/Non-Life Insurance"),
   ("JTMD.REIT.SAL.BK.M", "REIT, Sales, Banks"),
   ("JTMD.REIT.SAL.OTHERFIN.M", "REIT, Sales, Other Financials"),
   ("JTMD.REIT.PURCH.PROP.M", "REIT, Purchases, Proprietary"),
   ("JTMD.REIT.PURCH.BROKER.M", "REIT, Purchases, Brokerage"),
   ("JTMD.REIT.PURCH.TOT.M", "REIT, Purchases, Total"),
   ("JTMD.REIT.PURCH.INST.M", "REIT, Purchases, Institutions"),
   ("JTMD.REIT.PURCH.INDIV.M", "REIT, Purchases, Individuals"),
   ("JTMD.REIT.PURCH.FOR.M", "REIT, Purchases, Foreigners"),
   ("JTMD.REIT.PURCH.SECCOS.M", "REIT, Purchases, Securities Cos."),
   ("JTMD.REIT.PURCH.INVTRUST.M", "REIT, Purchases, Investment Trusts"),
   ("JTMD.REIT.PURCH.BUSCORP.M", "REIT, Purchases, Business Cos."),
   ("JTMD.REIT.PURCH.OTHINST.M", "REIT, Purchases, Other Cos."),
   ("JTMD.REIT.PURCH.INSTFIN.M", "REIT, Purchases, Financial Institutions"),
   ("JTMD.REIT.PURCH.INS.M", "REIT, Purchases, Life/Non-Life Insurance"),
   ("JTMD.REIT.PURCH.BK.M", "REIT, Purchases, Banks"),
   ("JTMD.REIT.PURCH.OTHERFIN.M", "REIT, Purchases, Other Financials")]

/-- The static table `_initialize_fixed_mappings`: indicator code paired
with its `(row, col)` coordinate, in the source's insertion order. -/
def fixed_mappings : List (String × Nat × Nat) :=
  [("JTMD.ETF.SAL.PROP.M", 13, 4), ("JTMD.ETF.PURCH.PROP.M", 14, 4),
   ("JTMD.ETF.SAL.BROKER.M", 16, 4), ("JTMD.ETF.PURCH.BROKER.M", 17, 4),
   ("JTMD.ETF.SAL.TOT.M", 19, 4), ("JTMD.ETF.PURCH.TOT.M", 20, 4),
   ("JTMD.ETF.SAL.INST.M", 24, 4), ("JTMD.ETF.PURCH.INST.M", 25, 4),
   ("JTMD.ETF.SAL.INDIV.M", 27, 4), ("JTMD.ETF.PURCH.INDIV.M", 28, 4),
   ("JTMD.ETF.SAL.FOR.M", 30, 4), ("JTMD.ETF.PURCH.FOR.M", 31, 4),
   ("JTMD.ETF.SAL.SECCOS.M", 33, 4), ("JTMD.ETF.PURCH.SECCOS.M", 34, 4),
   ("JTMD.ETF.SAL.INVTRUST.M", 38, 4), ("JTMD.ETF.PURCH.INVTRUST.M", 39, 4),
   ("JTMD.ETF.SAL.BUSCORP.M", 41, 4), ("JTMD.ETF.PURCH.BUSCORP.M", 42, 4),
   ("JTMD.ETF.SAL.OTHINST.M", 44, 4), ("JTMD.ETF.PURCH.OTHINST.M", 45, 4),
   ("JTMD.ETF.SAL.INSTFIN.M", 47, 4), ("JTMD.ETF.PURCH.INSTFIN.M", 48, 4),
   ("JTMD.ETF.SAL.INS.M", 52, 4), ("JTMD.ETF.PURCH.INS.M", 53, 4),
   ("JTMD.ETF.SAL.BK.M", 55, 4), ("JTMD.ETF.PURCH.BK.M", 56, 4),
   ("JTMD.ETF.SAL.OTHERFIN.M", 58, 4), ("JTMD.ETF.PURCH.OTHERFIN.M", 59, 4),
   ("JTMD.REIT.SAL.PROP.M", 13, 4), ("JTMD.REIT.PURCH.PROP.M", 14, 4),
   ("JTMD.REIT.SAL.BROKER.M", 16, 4), ("JTMD.REIT.PURCH.BROKER.M", 17, 4),
   ("JTMD.REIT.SAL.TOT.M", 19, 4), ("JTMD.REIT.PURCH.TOT.M", 20, 4),
   ("JTMD.REIT.SAL.INST.M", 24, 4), ("JTMD.REIT.PURCH.INST.M", 25, 4),
   ("JTMD.REIT.SAL.INDIV.M", 27, 4), ("JTMD.REIT.PURCH.INDIV.M", 28, 4),
   ("JTMD.REIT.SAL.FOR.M", 30, 4), ("JTMD.REIT.PURCH.FOR.M", 31, 4),
   ("JTMD.REIT.SAL.SECCOS.M", 33, 4), ("JTMD.REIT.PURCH.SECCOS.M", 34, 4),
   ("JTMD.REIT.SAL.INVTRUST.M", 38, 4), ("JTMD.REIT.PURCH.INVTRUST.M", 39, 4),
   ("JTMD.REIT.SAL.BUSCORP.M", 41, 4), ("JTMD.REIT.PURCH.BUSCORP.M", 42, 4),
   ("JTMD.REIT.SAL.OTHINST.M", 44, 4), ("JTMD.REIT.PURCH.OTHINST.M", 45, 4),
   ("JTMD.REIT.SAL.INSTFIN.M", 47, 4), ("JTMD.REIT.PURCH.INSTFIN.M", 48, 4),
   ("JTMD.REIT.SAL.INS.M", 52, 4), ("JTMD.REIT.PURCH.INS.M", 53, 4),
   ("JTMD.REIT.SAL.BK.M", 55, 4), ("JTMD.REIT.PURCH.BK.M", 56, 4),
   ("JTMD.REIT.SAL.OTHERFIN.M", 58, 4), ("JTMD.REIT.PURCH.OTHERFIN.M", 59, 4)]

/-- A Python dict with string keys, as an insertion-ordered association
list; `ResultMap` plays ExtractionResult, `Dataset` the period-keyed map. -/
abbrev ResultMap := List (String × String)

/-- The period-keyed dataset `all_data` accumulated by `run`. -/
abbrev Dataset := List (String × ResultMap)

/-- Python `d[k]` read (first binding wins; dicts keep keys unique). -/
def alookup {α : Type} : List (String × α) → String → Option α
  | [], _ => none
  | p :: t, k => if p.1 = k then some p.2 else alookup t k

/-- Python `k in d`. -/
def hasKey {α : Type} (m : List (String × α)) (k : String) : Bool :=
  m.any (fun p => decide (p.1 = k))

/-- Python dict assignment `d[k] = v`: replace the binding in place when the
key is present, otherwise append a new binding. -/
def dictInsert (m : ResultMap) (k v : String) : ResultMap :=
  if hasKey m k then m.map (fun p => if p.1 = k then (k, v) else p)
  else m ++ [(k, v)]

/-- Python `d.update(new)`: assign each binding of `new` in order. -/
def dictUpdate (m d : ResultMap) : ResultMap :=
  d.foldl (fun acc p => dictInsert acc p.1 p.2) m

/-- Reading `data_rows[r][c]`: `some` exactly when both indices are in
bounds (`r < len(data_rows)` and `c < len(data_rows[r])`), the guard /
`IndexError` condition of the extraction loops. -/
def readCell (g : Grid) (r c : Nat) : Option Cell :=
  (g.get? r).bind (fun row => row.get? c)

/-- The method `_preserve_number_formatting`: NaN/None and the empty string
become `""`, every other raw value is stringified and stripped. -/
def preserve_number_formatting : Cell → String
  | .na => ""
  | .str s => strTrim s

/-- The dynamically built balance code
`f"JTMD.{sheet_type.upper()}.BAL.{category_key}.M"`. -/
def balanceColumnCode (st : AssetType) (k : Cat) : String :=
  "JTMD." ++ st.code ++ ".BAL." ++ k.key ++ ".M"

/-- The offset loop of `find_balance_in_category`: try each offset in
order; where the row/column guard holds and the formatted value is truthy,
return it paired with the balance code. -/
def findBalanceGo (g : Grid) (code : String) (base : Nat) :
    List Nat → Option (String × String)
  | [] => none
  | o :: rest =>
      match readCell g (base + o) 6 with
      | some raw =>
          let f := preserve_number_formatting raw
          if f = "" then findBalanceGo g code base rest else some (code, f)
      | none => findBalanceGo g code base rest

/-- The method `find_balance_in_category`. -/
def find_balance_in_category (g : Grid) (k : Cat) (st : AssetType) :
    Option (String × String) :=
  findBalanceGo g (balanceColumnCode st k) k.baseRow k.searchOffsets

/-- The dict comprehension in `_extract_from_sheet` that restricts
`fixed_mappings` to the codes starting with `f"JTMD.{sheet_type.upper()}"`. -/
def relevantMappings (st : AssetType) : List (String × Nat × Nat) :=
  fixed_mappings.filter (fun e => ("JTMD." ++ st.code).data.isPrefixOf e.1.data)

/-- The fixed-coordinate loop of `_extract_from_sheet`: read each mapped
cell, skip out-of-bounds coordinates (`IndexError`) and falsy formatted
values, and assign the rest into the result dict. -/
def extractFixed (g : Grid) (l : List (String × Nat × Nat))
    (acc : ResultMap) : ResultMap :=
  l.foldl (fun acc e =>
    match readCell g e.2.1 e.2.2 with
    | none => acc
    | some raw =>
        let f := preserve_number_formatting raw
        if f = "" then acc else dictInsert acc e.1 f) acc

/-- The balance loop of `_extract_from_sheet`: run the resolver once per
category key and assign each hit into the result dict. -/
def extractBalance (g : Grid) (st : AssetType) (l : List Cat)
    (acc : ResultMap) : ResultMap :=
  l.foldl (fun acc k =>
    match find_balance_in_category g k st with
    | none => acc
    | some cv => dictInsert acc cv.1 cv.2) acc

/-- The method `_extract_from_sheet`: fixed coordinates first, then the
fourteen balance categories. -/
def extract_from_sheet (g : Grid) (st : AssetType) : ResultMap :=
  extractBalance g st categoryOrder (extractFixed g (relevantMappings st) [])

/-- The first leftmost position test of `re.search(r'm(\d{2})(\d{2})', s)`:
does the marker pattern match at the head of this suffix, and with which
two captured groups. -/
def markerMatchAt : List Char → Option (String × String)
  | 'm' :: a :: b :: c :: d :: _ =>
      if isDigitChar a && isDigitChar b && isDigitChar c && isDigitChar d
      then some (⟨[a, b]⟩, ⟨[c, d]⟩) else none
  | _ => none

/-- Leftmost match of the marker pattern, as `re.search` finds it. -/
def searchMarker : List Char → Option (String × String)
  | [] => none
  | c :: rest =>
      match markerMatchAt (c :: rest) with
      | some r => some r
      | none => searchMarker rest

/-- The method `_extract_period_from_filename`; `now` stands for the
external value `datetime.now().strftime('%Y-%m')` used as fallback. -/
def extract_period_from_filename (filename : String) (now : String) : String :=
  match searchMarker (lowerList filename.data) with
  | some (yy, mm) => "20" ++ yy ++ "-" ++ mm
  | none => now

/-- The classification `'ETF' if 'etf' in file_path.name.lower() else 'REIT'`
in `process_excel_file`. -/
def classifySheetType (name : String) : AssetType :=
  if containsToken (lowerList name.data) "etf".data then .ETF else .REIT

/-- The method `process_excel_file`. A file is its name plus the outcome of
loading its `Value` sheet: `none` when the sheet is missing or any
exception is raised while reading the workbook (both return `(period, {})`
in the source), `some grid` on success. -/
def process_excel_file (name : String) (loaded : Option Grid) (now : String) :
    String × ResultMap :=
  let period := extract_period_from_filename name now
  match loaded with
  | none => (period, [])
  | some g => (period, extract_from_sheet g (classifySheetType name))

/-- One merge step of the accumulation loop in `run`:
`if period not in all_data: all_data[period] = {}` followed by
`all_data[period].update(data)`. -/
def mergeFile (ds : Dataset) (p : String) (d : ResultMap) : Dataset :=
  let ds' := if hasKey ds p then ds else ds ++ [(p, [])]
  ds'.map (fun e => if e.1 = p then (e.1, dictUpdate e.2 d) else e)

/-- The accumulation loop of `run` over the enumerated files. -/
def runDataset (files : List (String × Option Grid)) (now : String) : Dataset :=
  files.foldl (fun all f =>
    let pd := process_excel_file f.1 f.2 now
    mergeFile all pd.1 pd.2) []

/-- Stable insertion placing `x` after every entry whose key is `≤` its
key; folding it over the dataset models Python's stable `sorted` by the
unique period keys. -/
def sortInsert (x : String × ResultMap) :
    List (String × ResultMap) → List (String × ResultMap)
  | [] => [x]
  | y :: t => if lexLe y.1.data x.1.data then y :: sortInsert x t else x :: y :: t

/-- Model of `sorted(all_data.items())` (dict keys are unique, so only the
period key decides the order). -/
def sortByPeriod (ds : Dataset) : Dataset :=
  ds.foldl (fun acc x => sortInsert x acc) []

/-- The method `_create_output_csv`, as the list of CSV rows it writes: the
code header row, the description header row, then one row per period in
ascending period order whose cells follow the catalog's column order, with
`period_data.get(col, '')` filling absent codes with a blank. -/
def create_output_csv (ds : Dataset) : List (List String) :=
  ("" :: column_mapping.map (fun cd => cd.1)) ::
  ("" :: column_mapping.map (fun cd => cd.2)) ::
  (sortByPeriod ds).map (fun e =>
    e.1 :: column_mapping.map (fun col => (alookup e.2 col.1).getD ""))

/-- The method `_create_metadata_csv`, as the list of CSV rows it writes;
`genTime` stands for the external `datetime.now()` LAST_UPDATE stamp. -/
def create_metadata_csv (genTime : String) : List (List String) :=
  ["CODE", "DESCRIPTION", "UNIT", "FREQUENCY", "SOURCE", "DATASET",
   "LAST_UPDATE", "NEXT_RELEASE_DATE", "DATA_TYPE", "CATEGORY"] ::
  column_mapping.map (fun cd =>
    [cd.1, cd.2, "Thousand JPY", "Monthly", "Japan Exchange Group (JPX)",
     "JTMD", genTime, "", "Numeric", "Trading Statistics"])

/-- The three artifacts a successful `run` produces. -/
structure RunOutput where
  dataFileName : String
  dataTable : List (List String)
  metaFileName : String
  metaTable : List (List String)
  archiveName : String
  archiveMembers : List String
deriving DecidableEq

/-- The method `run`: abort (`none`) when no workbook file was enumerated
or when the accumulated dataset is empty, otherwise emit the data table,
the metadata table and the archive; `stamp` stands for the external
`datetime.now().strftime('%Y%m%d')`. -/
def run (files : List (String × Option Grid)) (now stamp genTime : String) :
    Option RunOutput :=
  if files.isEmpty then none
  else
    let allData := runDataset files now
    if allData.isEmpty then none
    else some
      { dataFileName := "JTMD_DATA_" ++ stamp ++ ".csv"
        dataTable := create_output_csv allData
        metaFileName := "JTMD_META_" ++ stamp ++ ".csv"
        metaTable := create_metadata_csv genTime
        archiveName := "JTMD_" ++ stamp ++ ".zip"
        archiveMembers := ["JTMD_DATA_" ++ stamp ++ ".csv",
                           "JTMD_META_" ++ stamp ++ ".csv"] }

/-- Left-biased choice on options, Python's `x if x is not None else y`. -/
def optOr {α : Type} : Option α → Option α → Option α
  | some v, _ => some v
  | none, b => b

/-- First defined element of a list of options: the value the bounded
offset search keeps, reformulated from the spec's probe-order sentence. -/
def firstSome {α : Type} : List (Option α) → Option α
  | [] => none
  | o :: t =>
      match o with
      | some v => some v
      | none => firstSome t

/-- One probe of the bounded offset search, reformulated from the spec: the
formatted value at `grid[r][6]` when the cell is in bounds and its
formatted value is non-empty. -/
def balanceProbe (g : Grid) (r : Nat) : Option String :=
  match readCell g r 6 with
  | none => none
  | some raw =>
      let f := preserve_number_formatting raw
      if f = "" then none else some f

/-- One fixed-coordinate probe, reformulated from the spec: the formatted
value at `grid[r][c]` when in bounds and non-empty. -/
def fixedProbe (g : Grid) (r c : Nat) : Option String :=
  match readCell g r c with
  | none => none
  | some raw =>
      let f := preserve_number_formatting raw
      if f = "" then none else some f

/-- The replacement Python dict assignment performs on the bindings whose
key is `k`. -/
def replKV (k v : String) (p : String × String) : String × String :=
  if p.1 = k then (k, v) else p

/-- Value carried by the last binding of `k` in `d`: the binding that
survives when `d`'s bindings are assigned in order. -/
def lastLookup : ResultMap → String → Option String
  | [], _ => none
  | p :: t, k =>
      match lastLookup t k with
      | some v => some v
      | none => if p.1 = k then some p.2 else none

/-- Every binding of key `k` in `m` carries the value `v`. -/
def AllVal (m : ResultMap) (k v : String) : Prop :=
  ∀ p ∈ m, p.1 = k → p = (k, v)

/-- A grid whose balance cell for the first category sits at offset 1 of
the search window: row 13 is too short for column 6, row 14 carries "42". -/
def gridW1 : Grid :=
  (List.replicate 13 ([] : List Cell)) ++
  [[Cell.na, Cell.na, Cell.na, Cell.na, Cell.str " 7 "],
   [Cell.na, Cell.na, Cell.na, Cell.na, Cell.na, Cell.na, Cell.str "42"]]

/-- A 14-row grid whose only non-empty mapped cell is `grid[13][4]`. -/
def gridW6 : Grid :=
  (List.replicate 13 ([] : List Cell)) ++
  [[Cell.na, Cell.na, Cell.na, Cell.na, Cell.str " 7 "]]

theorem optOr_none_right {α : Type} (a : Option α) : optOr a none = a := by
  cases a <;> rfl

theorem hasKey_false_forall {α : Type} {m : List (String × α)} {k : String}
    (h : hasKey m k = false) : ∀ p ∈ m, p.1 ≠ k := by
  intro p hp hk
  have : hasKey m k = true := by
    simp only [hasKey, List.any_eq_true]
    exact ⟨p, hp, by simp [hk]⟩
  rw [h] at this
  exact Bool.false_ne_true this

theorem alookup_eq_none_of_hasKey_false {α : Type} {m : List (String × α)}
    {k : String} (h : hasKey m k = false) : alookup m k = none := by
  induction m with
  | nil => rfl
  | cons p t ih =>
      simp only [hasKey, List.any_cons, Bool.or_eq_false_iff,
        decide_eq_false_iff_not] at h
      simp only [alookup, if_neg h.1]
      exact ih (by simp only [hasKey]; exact h.2)

theorem alookup_append {α : Type} (m l : List (String × α)) (c : String) :
    alookup (m ++ l) c = optOr (alookup m c) (alookup l c) := by
  induction m with
  | nil => rfl
  | cons p t ih =>
      by_cases h : p.1 = c
      · simp [alookup, h, optOr]
      · simp [alookup, h, ih]

theorem dictInsert_eq (m : ResultMap) (k v : String) :
    dictInsert m k v =
      if hasKey m k then m.map (replKV k v) else m ++ [(k, v)] := rfl

theorem alookup_map_replKV (m : ResultMap) (k v c : String) :
    alookup (m.map (replKV k v)) c =
      if c = k then (if hasKey m k then some v else none) else alookup m c := by
  induction m with
  | nil => simp [alookup, hasKey]
  | cons p t ih =>
      by_cases h2 : c = k
      · subst h2
        by_cases h1 : p.1 = c
        · simp [alookup, replKV, hasKey, h1, ih]
        · have hhk : hasKey (p :: t) c = hasKey t c := by
            simp [hasKey, List.any_cons, decide_eq_false h1]
          have hrep : replKV c v p = p := if_neg h1
          simp only [List.map_cons, hrep, alookup, if_neg h1, ih,
            if_pos rfl, hhk]
      · have h2' : ¬ k = c := fun hh => h2 hh.symm
        by_cases h1 : p.1 = k
        · simp [alookup, replKV, hasKey, h1, h2, h2', ih]
        · by_cases h3 : p.1 = c <;> simp [alookup, replKV, h1, h2, h3, ih]

theorem alookup_dictInsert (m : ResultMap) (k v c : String) :
    alookup (dictInsert m k v) c = if c = k then some v else alookup m c := by
  rw [dictInsert_eq]
  by_cases h : hasKey m k
  · simp [h, alookup_map_replKV]
  · rw [if_neg (by simp [h]), alookup_append]
    by_cases h2 : c = k
    · subst h2
      rw [alookup_eq_none_of_hasKey_false (by simp [h] : hasKey m c = false)]
      simp [alookup, optOr]
    · have h2' : ¬ k = c := fun hh => h2 hh.symm
      simp [alookup, h2, h2', optOr_none_right]

theorem alookup_dictUpdate (d : ResultMap) :
    ∀ (m : ResultMap) (c : String),
      alookup (dictUpdate m d) c = optOr (lastLookup d c) (alookup m c) := by
  induction d with
  | nil => intro m c; simp [dictUpdate, lastLookup, optOr]
  | cons p t ih =>
      intro m c
      have step : dictUpdate m (p :: t) = dictUpdate (dictInsert m p.1 p.2) t := rfl
      rw [step, ih, alookup_dictInsert]
      by_cases h : c = p.1
      · subst h
        cases hlast : lastLookup t p.1 <;>
          simp [lastLookup, hlast, optOr]
      · have h' : ¬ p.1 = c := fun hh => h hh.symm
        cases hlast : lastLookup t c <;>
          simp [lastLookup, hlast, h, h', optOr]

theorem hasKey_map_replKV (m : ResultMap) (k v c : String) :
    hasKey (m.map (replKV k v)) c = hasKey m c := by
  induction m with
  | nil => rfl
  | cons p t ih =>
      by_cases h1 : p.1 = k <;>
        simp [hasKey, replKV, h1, List.any_cons] at ih ⊢ <;>
        rw [ih]

theorem hasKey_append {α : Type} (a b : List (String × α)) (c : String) :
    hasKey (a ++ b) c = (hasKey a c || hasKey b c) := by
  simp [hasKey, List.any_append]

theorem hasKey_dictInsert_self (m : ResultMap) (k v : String) :
    hasKey (dictInsert m k v) k = true := by
  rw [dictInsert_eq]
  cases h : hasKey m k
  · rw [if_neg Bool.false_ne_true, hasKey_append, h]
    simp [hasKey]
  · rw [if_pos rfl, hasKey_map_replKV]
    exact h

theorem hasKey_dictInsert_mono (m : ResultMap) (k v c : String)
    (h : hasKey m c = true) : hasKey (dictInsert m k v) c = true := by
  rw [dictInsert_eq]
  by_cases hk : hasKey m k
  · simp [hk, hasKey_map_replKV, h]
  · simp [hk, hasKey_append, h]

theorem hasKey_dictUpdate_mono (d : ResultMap) :
    ∀ (m : ResultMap) (c : String), hasKey m c = true →
      hasKey (dictUpdate m d) c = true := by
  induction d with
  | nil => intro m c h; exact h
  | cons p t ih =>
      intro m c h
      exact ih (dictInsert m p.1 p.2) c (hasKey_dictInsert_mono m p.1 p.2 c h)

theorem allVal_map_replKV (m : ResultMap) (k v : String) :
    AllVal (m.map (replKV k v)) k v := by
  intro q hq hqk
  rcases List.mem_map.mp hq with ⟨p, _, hrepl⟩
  by_cases h1 : p.1 = k
  · rw [← hrepl]; simp [replKV, h1]
  · exfalso
    rw [← hrepl] at hqk
    simp only [replKV, if_neg h1] at hqk
    exact h1 hqk

theorem allVal_dictInsert_self (m : ResultMap) (k v : String) :
    AllVal (dictInsert m k v) k v := by
  rw [dictInsert_eq]
  by_cases h : hasKey m k
  · simpa [h] using allVal_map_replKV m k v
  · rw [if_neg (by simp [h])]
    intro q hq hqk
    rcases List.mem_append.mp hq with hq1 | hq2
    · exact absurd hqk (hasKey_false_forall (by simp [h]) q hq1)
    · simp only [List.mem_singleton] at hq2
      rw [hq2]

theorem allVal_dictInsert_other (m : ResultMap) (k v k' w : String)
    (hav : AllVal m k v) (hne : k' ≠ k) :
    AllVal (dictInsert m k' w) k v := by
  rw [dictInsert_eq]
  by_cases h : hasKey m k'
  · rw [if_pos h]
    intro q hq hqk
    rcases List.mem_map.mp hq with ⟨p, hp, hrepl⟩
    by_cases h1 : p.1 = k'
    · rw [← hrepl] at hqk
      simp only [replKV, if_pos h1] at hqk
      exact absurd hqk hne
    · rw [← hrepl] at hqk ⊢
      simp only [replKV, if_neg h1] at hqk ⊢
      exact hav p hp hqk
  · rw [if_neg (by simp [h])]
    intro q hq hqk
    rcases List.mem_append.mp hq with hq1 | hq2
    · exact hav q hq1 hqk
    · simp only [List.mem_singleton] at hq2
      rw [hq2] at hqk
      exact absurd hqk hne

theorem allVal_dictUpdate_avoid (d : ResultMap) :
    ∀ (m : ResultMap) (k v : String), AllVal m k v →
      (∀ p ∈ d, p.1 ≠ k) → AllVal (dictUpdate m d) k v := by
  induction d with
  | nil => intro m k v hav _; exact hav
  | cons p t ih =>
      intro m k v hav havoid
      exact ih (dictInsert m p.1 p.2) k v
        (allVal_dictInsert_other m k v p.1 p.2 hav
          (havoid p (List.mem_cons_self p t)))
        (fun q hq => havoid q (List.mem_cons_of_mem p hq))

theorem map_replKV_of_allVal (m : ResultMap) (k v : String)
    (hav : AllVal m k v) : m.map (replKV k v) = m := by
  induction m with
  | nil => rfl
  | cons p t ih =>
      have ht : AllVal t k v := fun q hq hqk =>
        hav q (List.mem_cons_of_mem p hq) hqk
      by_cases h1 : p.1 = k
      · have := hav p (List.mem_cons_self p t) h1
        simp [replKV, h1, ih ht, this.symm]
      · simp [replKV, h1, ih ht]

theorem dictInsert_of_allVal (m : ResultMap) (k v : String)
    (hk : hasKey m k = true) (hav : AllVal m k v) :
    dictInsert m k v = m := by
  rw [dictInsert_eq, if_pos hk, map_replKV_of_allVal m k v hav]

theorem replKV_replKV_self (k v w : String) (p : String × String) :
    replKV k w (replKV k v p) = replKV k w p := by
  by_cases h : p.1 = k <;> simp [replKV, h]

theorem replKV_comm (k v k' w : String) (p : String × String) (h : k ≠ k') :
    replKV k v (replKV k' w p) = replKV k' w (replKV k v p) := by
  by_cases h1 : p.1 = k <;> by_cases h2 : p.1 = k'
  · exact absurd (h1.symm.trans h2) h
  · simp [replKV, h1, h2, h, Ne.symm h]
  · simp [replKV, h1, h2, h, Ne.symm h]
  · simp [replKV, h1, h2]

theorem dictUpdate_map_replKV_of_hit (k v : String) :
    ∀ (t : ResultMap) (m : ResultMap), hasKey m k = true →
      t.any (fun p => decide (p.1 = k)) = true →
      dictUpdate (m.map (replKV k v)) t = dictUpdate m t := by
  intro t
  induction t with
  | nil => intro m _ hany; simp at hany
  | cons p t ih =>
      intro m hk hany
      have step1 : ∀ mm : ResultMap, dictUpdate mm (p :: t)
          = dictUpdate (dictInsert mm p.1 p.2) t := fun _ => rfl
      rw [step1, step1]
      by_cases h1 : p.1 = k
      · subst h1
        rw [dictInsert_eq, dictInsert_eq,
          if_pos (by rw [hasKey_map_replKV]; exact hk), if_pos (by rw [hk]),
          List.map_map]
        have hc : (replKV p.1 p.2 ∘ replKV p.1 v) = replKV p.1 p.2 := by
          funext q
          simp only [Function.comp_apply]
          exact replKV_replKV_self p.1 v p.2 q
        rw [hc]
      · have hany' : t.any (fun q => decide (q.1 = k)) = true := by
          simp only [List.any_cons, h1, decide_eq_true_eq] at hany
          simpa using hany
        rw [dictInsert_eq, dictInsert_eq,
          show hasKey (m.map (replKV k v)) p.1 = hasKey m p.1 from
            hasKey_map_replKV m k v p.1]
        by_cases hp : hasKey m p.1
        · rw [if_pos hp, if_pos hp, List.map_map]
          have hc : (replKV p.1 p.2 ∘ replKV k v)
              = (replKV k v ∘ replKV p.1 p.2) := by
            funext q
            simp only [Function.comp_apply]
            exact replKV_comm p.1 p.2 k v q h1
          rw [hc, ← List.map_map]
          exact ih (m.map (replKV p.1 p.2))
            (by rw [hasKey_map_replKV]; exact hk) hany'
        · rw [if_neg (by simp [hp]), if_neg (by simp [hp])]
          have happ : m.map (replKV k v) ++ [(p.1, p.2)]
              = (m ++ [(p.1, p.2)]).map (replKV k v) := by
            rw [List.map_append]
            simp [replKV, h1]
          rw [happ]
          exact ih (m ++ [(p.1, p.2)])
            (by rw [hasKey_append, hk]; rfl) hany'

theorem dictUpdate_idem (d : ResultMap) :
    ∀ m : ResultMap, dictUpdate (dictUpdate m d) d = dictUpdate m d := by
  induction d with
  | nil => intro m; rfl
  | cons p t ih =>
      intro m
      have step : ∀ mm : ResultMap, dictUpdate mm (p :: t)
          = dictUpdate (dictInsert mm p.1 p.2) t := fun _ => rfl
      rw [step, step]
      set m1 := dictInsert m p.1 p.2 with hm1
      have hkm1 : hasKey m1 p.1 = true := hasKey_dictInsert_self m p.1 p.2
      have hkX : hasKey (dictUpdate m1 t) p.1 = true :=
        hasKey_dictUpdate_mono t m1 p.1 hkm1
      by_cases hany : t.any (fun q => decide (q.1 = p.1)) = true
      · rw [dictInsert_eq, if_pos hkX]
        rw [dictUpdate_map_replKV_of_hit p.1 p.2 t (dictUpdate m1 t) hkX hany]
        exact ih m1
      · have havoid : ∀ q ∈ t, q.1 ≠ p.1 := by
          intro q hq hqk
          exact hany (by simp only [List.any_eq_true]
                         exact ⟨q, hq, by simp [hqk]⟩)
        have havX : AllVal (dictUpdate m1 t) p.1 p.2 :=
          allVal_dictUpdate_avoid t m1 p.1 p.2
            (allVal_dictInsert_self m p.1 p.2) havoid
        rw [dictInsert_of_allVal (dictUpdate m1 t) p.1 p.2 hkX havX]
        exact ih m1

theorem alookup_none_iff {α : Type} (m : List (String × α)) (k : String) :
    alookup m k = none ↔ hasKey m k = false := by
  induction m with
  | nil => simp [alookup, hasKey]
  | cons p t ih =>
      by_cases h : p.1 = k <;>
        simp [alookup, hasKey, List.any_cons, h, ih]

theorem hasKey_true_of_alookup_some {α : Type} {m : List (String × α)}
    {k : String} {v : α} (h : alookup m k = some v) : hasKey m k = true := by
  cases hk : hasKey m k
  · rw [(alookup_none_iff m k).mpr hk] at h
    cases h
  · rfl

theorem alookup_isSome_of_hasKey {α : Type} {m : List (String × α)}
    {k : String} (h : hasKey m k = true) : (alookup m k).isSome = true := by
  cases ha : alookup m k
  · rw [(alookup_none_iff m k).mp ha] at h
    cases h
  · rfl

theorem alookup_map_updateAt (f : ResultMap → ResultMap) (l : Dataset)
    (p c : String) :
    alookup (l.map (fun e => if e.1 = p then (e.1, f e.2) else e)) c =
      if c = p then (alookup l p).map f else alookup l c := by
  induction l with
  | nil => simp [alookup]
  | cons e t ih =>
      by_cases he : e.1 = p
      · by_cases hc : c = p
        · subst hc
          simp [alookup, he]
        · have h3 : ¬ e.1 = c := fun hh => hc (hh.symm.trans he)
          have hc' : ¬ p = c := fun hh => hc hh.symm
          simp [alookup, he, hc, hc', h3, ih]
      · by_cases hc : c = p
        · subst hc
          simp [alookup, he, ih]
        · by_cases h3 : e.1 = c <;> simp [alookup, he, hc, h3, ih]

theorem hasKey_map_updateAt (f : ResultMap → ResultMap) (l : Dataset)
    (p c : String) :
    hasKey (l.map (fun e => if e.1 = p then (e.1, f e.2) else e)) c
      = hasKey l c := by
  induction l with
  | nil => rfl
  | cons e t ih =>
      by_cases he : e.1 = p <;>
        simp [hasKey, List.any_cons, he, ih] at ih ⊢ <;> rw [ih]

theorem mergeFile_eq (ds : Dataset) (p : String) (d : ResultMap) :
    mergeFile ds p d =
      (if hasKey ds p then ds else ds ++ [(p, [])]).map
        (fun e => if e.1 = p then (e.1, dictUpdate e.2 d) else e) := rfl

theorem alookup_mergeFile_new (ds : Dataset) (p : String) (d : ResultMap)
    (h : alookup ds p = none) :
    alookup (mergeFile ds p d) p = some (dictUpdate [] d) := by
  have hk : hasKey ds p = false := (alookup_none_iff ds p).mp h
  rw [mergeFile_eq, if_neg (by rw [hk]; exact Bool.false_ne_true),
    alookup_map_updateAt (fun m => dictUpdate m d) (ds ++ [(p, [])]) p p,
    if_pos rfl, alookup_append, h]
  simp [alookup, optOr]

theorem alookup_mergeFile_existing (ds : Dataset) (p : String)
    (d m : ResultMap) (h : alookup ds p = some m) :
    alookup (mergeFile ds p d) p = some (dictUpdate m d) := by
  rw [mergeFile_eq, if_pos (by rw [hasKey_true_of_alookup_some h]),
    alookup_map_updateAt (fun m => dictUpdate m d) ds p p, if_pos rfl, h]
  rfl

theorem mergeFile_hasKey_self (ds : Dataset) (p : String) (d : ResultMap) :
    hasKey (mergeFile ds p d) p = true := by
  rw [mergeFile_eq]
  cases h : hasKey ds p
  · rw [if_neg Bool.false_ne_true,
      hasKey_map_updateAt (fun m => dictUpdate m d) (ds ++ [(p, [])]) p p,
      hasKey_append, h]
    simp [hasKey]
  · rw [if_pos rfl, hasKey_map_updateAt (fun m => dictUpdate m d) ds p p]
    exact h

theorem mergeFile_preserves_key (ds : Dataset) (p : String) (d : ResultMap)
    (q : String) (h : hasKey ds q = true) :
    hasKey (mergeFile ds p d) q = true := by
  rw [mergeFile_eq]
  cases hk : hasKey ds p
  · rw [if_neg Bool.false_ne_true,
      hasKey_map_updateAt (fun m => dictUpdate m d) (ds ++ [(p, [])]) p q,
      hasKey_append, h]
    rfl
  · rw [if_pos rfl, hasKey_map_updateAt (fun m => dictUpdate m d) ds p q]
    exact h

theorem map_updateAt_idem (l : Dataset) (p : String) (d : ResultMap) :
    (l.map (fun e => if e.1 = p then (e.1, dictUpdate e.2 d) else e)).map
        (fun e => if e.1 = p then (e.1, dictUpdate e.2 d) else e)
      = l.map (fun e => if e.1 = p then (e.1, dictUpdate e.2 d) else e) := by
  rw [List.map_map]
  refine List.map_congr_left ?_
  intro e _
  by_cases he : e.1 = p <;>
    simp [Function.comp, he, dictUpdate_idem]

theorem mergeFile_idem (ds : Dataset) (p : String) (d : ResultMap) :
    mergeFile (mergeFile ds p d) p d = mergeFile ds p d := by
  have hk2 : hasKey (mergeFile ds p d) p = true := mergeFile_hasKey_self ds p d
  conv_lhs => rw [mergeFile_eq]
  rw [if_pos (by rw [hk2])]
  conv_lhs => rw [mergeFile_eq]
  conv_rhs => rw [mergeFile_eq]
  cases hk : hasKey ds p
  · rw [if_neg Bool.false_ne_true]
    exact map_updateAt_idem (ds ++ [(p, [])]) p d
  · rw [if_pos rfl]
    exact map_updateAt_idem ds p d

theorem dictUpdate_all_fresh :
    ∀ (d acc : ResultMap), (∀ p ∈ d, hasKey acc p.1 = false) →
      (d.map Prod.fst).Nodup → dictUpdate acc d = acc ++ d := by
  intro d
  induction d with
  | nil => intro acc _ _; simp [dictUpdate]
  | cons p t ih =>
      intro acc hfresh hnd
      have hstep : dictUpdate acc (p :: t)
          = dictUpdate (dictInsert acc p.1 p.2) t := rfl
      have hf0 : hasKey acc p.1 = false := hfresh p (List.mem_cons_self p t)
      have hins : dictInsert acc p.1 p.2 = acc ++ [p] := by
        rw [dictInsert_eq, if_neg (by rw [hf0]; exact Bool.false_ne_true)]
      rw [hstep, hins]
      rw [List.map_cons] at hnd
      have hcons := List.nodup_cons.mp hnd
      have hfresh' : ∀ q ∈ t, hasKey (acc ++ [p]) q.1 = false := by
        intro q hq
        rw [hasKey_append]
        rw [hfresh q (List.mem_cons_of_mem p hq)]
        have hne : ¬ p.1 = q.1 := fun hh =>
          hcons.1 (hh ▸ List.mem_map_of_mem Prod.fst hq)
        simp [hasKey, hne]
      rw [ih (acc ++ [p]) hfresh' hcons.2, List.append_assoc]
      rfl

/-- C4: merging a file's `(Period, ExtractionResult)` pair into the dataset
inserts the full map when the period key is new (the source inserts `{}`
and updates it, which equals the map itself when its keys are unique),
merges with new values overwriting existing values for colliding codes
when the period exists, and merging the same pair twice equals merging it
once. -/
theorem c4_merge_semantics (ds : Dataset) (p : String) (d : ResultMap) :
    (alookup ds p = none →
        alookup (mergeFile ds p d) p = some (dictUpdate [] d)) ∧
    ((d.map Prod.fst).Nodup → dictUpdate [] d = d) ∧
    (∀ m, alookup ds p = some m →
        alookup (mergeFile ds p d) p = some (dictUpdate m d)) ∧
    (∀ m k, alookup (dictUpdate m d) k = optOr (lastLookup d k) (alookup m k)) ∧
    mergeFile (mergeFile ds p d) p d = mergeFile ds p d := by
  refine ⟨alookup_mergeFile_new ds p d, ?_, ?_, ?_, mergeFile_idem ds p d⟩
  · intro hnd
    rw [dictUpdate_all_fresh d [] (fun q _ => rfl) hnd]
    rfl
  · intro m hm
    exact alookup_mergeFile_existing ds p d m hm
  · intro m k
    exact alookup_dictUpdate d m k

/-- Witness for C4 at a concrete empty dataset and one-binding result. -/
theorem c4_witness :
    alookup (mergeFile [] "2024-03" [("JTMD.ETF.SAL.PROP.M", "7")]) "2024-03"
      = some (dictUpdate [] [("JTMD.ETF.SAL.PROP.M", "7")]) :=
  (c4_merge_semantics [] "2024-03" [("JTMD.ETF.SAL.PROP.M", "7")]).1 rfl

theorem findBalanceGo_cons (g : Grid) (code : String) (base o : Nat)
    (rest : List Nat) :
    findBalanceGo g code base (o :: rest) =
      match balanceProbe g (base + o) with
      | some v => some (code, v)
      | none => findBalanceGo g code base rest := by
  have e : findBalanceGo g code base (o :: rest) =
      match readCell g (base + o) 6 with
      | some raw =>
          let f := preserve_number_formatting raw
          if f = "" then findBalanceGo g code base rest else some (code, f)
      | none => findBalanceGo g code base rest := rfl
  rw [e]
  unfold balanceProbe
  cases h : readCell g (base + o) 6 with
  | none => rfl
  | some raw =>
      by_cases hf : preserve_number_formatting raw = "" <;> simp [hf]

/-- C1: for every grid, asset type and category key, the resolver equals
the first non-empty probe among rows `base_row + 0, + 1, + 2` at column 6,
paired with the balance code; in particular it takes the offset-1 value
when offset 0 is empty, prefers offset 0 over offset 1 when both are
non-empty, and yields nothing when all three probes are empty or out of
bounds. -/
theorem c1_balance_resolver_probe_order (g : Grid) (k : Cat) (st : AssetType) :
    (find_balance_in_category g k st =
      Option.map (fun v => (balanceColumnCode st k, v))
        (firstSome [balanceProbe g k.baseRow, balanceProbe g (k.baseRow + 1),
          balanceProbe g (k.baseRow + 2)])) ∧
    (balanceProbe g k.baseRow = none → ∀ v,
        balanceProbe g (k.baseRow + 1) = some v →
        find_balance_in_category g k st = some (balanceColumnCode st k, v)) ∧
    (∀ v w, balanceProbe g k.baseRow = some v →
        balanceProbe g (k.baseRow + 1) = some w →
        find_balance_in_category g k st = some (balanceColumnCode st k, v)) ∧
    (balanceProbe g k.baseRow = none → balanceProbe g (k.baseRow + 1) = none →
        balanceProbe g (k.baseRow + 2) = none →
        find_balance_in_category g k st = none) := by
  have hmain : find_balance_in_category g k st =
      Option.map (fun v => (balanceColumnCode st k, v))
        (firstSome [balanceProbe g k.baseRow, balanceProbe g (k.baseRow + 1),
          balanceProbe g (k.baseRow + 2)]) := by
    have e : find_balance_in_category g k st
        = findBalanceGo g (balanceColumnCode st k) k.baseRow [0, 1, 2] := rfl
    rw [e, findBalanceGo_cons, Nat.add_zero]
    cases h0 : balanceProbe g k.baseRow
    · rw [findBalanceGo_cons]
      cases h1 : balanceProbe g (k.baseRow + 1)
      · rw [findBalanceGo_cons]
        cases h2 : balanceProbe g (k.baseRow + 2) <;>
          simp [firstSome, h0, h1, h2, findBalanceGo]
      · simp [firstSome, h0, h1]
    · simp [firstSome, h0]
  refine ⟨hmain, ?_, ?_, ?_⟩
  · intro h0 v h1
    rw [hmain, h0, h1]
    rfl
  · intro v w h0 _
    rw [hmain, h0]
    rfl
  · intro h0 h1 h2
    rw [hmain, h0, h1, h2]
    rfl

/-- Witness for C1: on a grid whose window has an out-of-bounds row at
offset 0 and the value "42" at offset 1, the resolver returns that value. -/
theorem c1_witness :
    find_balance_in_category gridW1 Cat.PROP AssetType.ETF
      = some ("JTMD.ETF.BAL.PROP.M", "42") :=
  (c1_balance_resolver_probe_order gridW1 Cat.PROP AssetType.ETF).2.1
    (by decide) "42" (by decide)

/-- C2 as stated is false: the SALES/PURCHASES table for the ETF asset
type has 28 entries, not 30. -/
theorem c2_counterexample : ¬ (relevantMappings AssetType.ETF).length = 30 := by
  decide

/-- C2 amended: for each asset type the static SALES/PURCHASES table has
exactly 28 entries — the 14 trader categories times the two metrics — and
every entry carries column index 4. -/
theorem c2_fixed_table_shape :
    (relevantMappings AssetType.ETF).length = 28 ∧
    (relevantMappings AssetType.REIT).length = 28 ∧
    (∀ st : AssetType, (relevantMappings st).length = categoryOrder.length * 2) ∧
    (∀ st : AssetType,
      ((relevantMappings st).all (fun e => decide (e.2.2 = 4))) = true) := by
  refine ⟨by decide, by decide, ?_, ?_⟩ <;> intro st <;> cases st <;> decide

theorem searchMarker_eq_of_first (cs : List Char) :
    ∀ (i : Nat) (yy mm : String), markerMatchAt (cs.drop i) = some (yy, mm) →
      (∀ j, j < i → markerMatchAt (cs.drop j) = none) →
      searchMarker cs = some (yy, mm) := by
  induction cs with
  | nil =>
      intro i yy mm hm _
      rw [List.drop_nil] at hm
      simp [markerMatchAt] at hm
  | cons c rest ih =>
      intro i yy mm hm hfirst
      cases i with
      | zero =>
          rw [List.drop_zero] at hm
          unfold searchMarker
          rw [hm]
      | succ j =>
          have h0 : markerMatchAt (c :: rest) = none := by
            have h := hfirst 0 (Nat.succ_pos j)
            rwa [List.drop_zero] at h
          unfold searchMarker
          rw [h0]
          refine ih j yy mm (by simpa using hm) ?_
          intro j' hj'
          have h := hfirst (j' + 1) (Nat.succ_lt_succ hj')
          simpa using h

/-- C3 as stated is false: the name `m0101m2403.xls` contains the token
`m2403`, yet the deriver returns `"2001-01"` from the earlier match. -/
theorem c3_counterexample :
    containsToken (lowerList "m0101m2403.xls".data) "m2403".data = true ∧
    extract_period_from_filename "m0101m2403.xls" "2025-10" = "2001-01" ∧
    ¬ extract_period_from_filename "m0101m2403.xls" "2025-10" = "2024-03" := by
  refine ⟨by decide, by decide, by decide⟩

/-- C3 amended: when the leftmost match of the marker pattern in the
lowercased file name captures year suffix YY and month MM, the deriver
returns `"20{YY}-{MM}"`; in particular a name whose first match is `m2403`
yields `"2024-03"`. -/
theorem c3_first_marker_match (filename now : String) (i : Nat)
    (yy mm : String)
    (hmatch : markerMatchAt ((lowerList filename.data).drop i) = some (yy, mm))
    (hfirst : ∀ j, j < i → markerMatchAt ((lowerList filename.data).drop j) = none) :
    extract_period_from_filename filename now = "20" ++ yy ++ "-" ++ mm := by
  unfold extract_period_from_filename
  rw [searchMarker_eq_of_first (lowerList filename.data) i yy mm hmatch hfirst]

/-- Witness for C3: `etf_m2403.xls` first matches the marker at index 4 and
yields `"2024-03"`. -/
theorem c3_witness :
    extract_period_from_filename "etf_m2403.xls" "2025-10" = "2024-03" :=
  c3_first_marker_match "etf_m2403.xls" "2025-10" 4 "24" "03"
    (by decide) (by decide)

/-- C9: a file is classified ETF exactly when its lowercased name contains
the substring `etf`, and REIT exactly otherwise — the default is REIT and
no file name is rejected. -/
theorem c9_asset_type_default_reit (name : String) :
    (classifySheetType name = AssetType.ETF
        ↔ containsToken (lowerList name.data) "etf".data = true) ∧
    (classifySheetType name = AssetType.REIT
        ↔ containsToken (lowerList name.data) "etf".data = false) := by
  unfold classifySheetType
  cases h : containsToken (lowerList name.data) "etf".data <;> simp [h]

/-- Witness for C9: a name without the marker is classified REIT. -/
theorem c9_witness : classifySheetType "jtmd_data.xls" = AssetType.REIT :=
  (c9_asset_type_default_reit "jtmd_data.xls").2.mpr (by decide)

theorem cat_mem_categoryOrder : ∀ k : Cat, k ∈ categoryOrder := by
  intro k
  cases k <;> decide

theorem fixed_keys_nodup (st : AssetType) :
    ((relevantMappings st).map Prod.fst).Nodup := by
  cases st <;> decide

theorem fixed_keys_not_balance (st : AssetType) :
    ∀ e ∈ relevantMappings st, ∀ k ∈ categoryOrder,
      ¬ balanceColumnCode st k = e.1 := by
  cases st <;> decide

theorem balance_codes_nodup (st : AssetType) :
    (categoryOrder.map (balanceColumnCode st)).Nodup := by
  cases st <;> decide

theorem fixed_keys_in_catalog (st : AssetType) :
    ∀ e ∈ relevantMappings st, e.1 ∈ column_mapping.map Prod.fst := by
  cases st <;> decide

theorem balance_codes_in_catalog (st : AssetType) :
    ∀ k ∈ categoryOrder, balanceColumnCode st k ∈ column_mapping.map Prod.fst := by
  cases st <;> decide

theorem extractFixed_cons (g : Grid) (c : String) (r col : Nat)
    (t : List (String × Nat × Nat)) (acc : ResultMap) :
    extractFixed g ((c, r, col) :: t) acc =
      extractFixed g t
        (match fixedProbe g r col with
         | some f => dictInsert acc c f
         | none => acc) := by
  have e : extractFixed g ((c, r, col) :: t) acc =
      extractFixed g t
        (match readCell g r col with
         | none => acc
         | some raw =>
             let f := preserve_number_formatting raw
             if f = "" then acc else dictInsert acc c f) := rfl
  rw [e]
  unfold fixedProbe
  cases h : readCell g r col with
  | none => rfl
  | some raw =>
      by_cases hf : preserve_number_formatting raw = "" <;> simp [hf]

theorem extractBalance_cons (g : Grid) (st : AssetType) (k : Cat)
    (t : List Cat) (acc : ResultMap) :
    extractBalance g st (k :: t) acc =
      extractBalance g st t
        (match find_balance_in_category g k st with
         | none => acc
         | some cv => dictInsert acc cv.1 cv.2) := rfl

theorem alookup_extractFixed_not_mem (g : Grid) :
    ∀ (l : List (String × Nat × Nat)) (acc : ResultMap) (c : String),
      (∀ e ∈ l, e.1 ≠ c) →
      alookup (extractFixed g l acc) c = alookup acc c := by
  intro l
  induction l with
  | nil => intro acc c _; rfl
  | cons e t ih =>
      intro acc c hne
      obtain ⟨c0, r0, col0⟩ := e
      rw [extractFixed_cons]
      rw [ih _ c (fun q hq => hne q (List.mem_cons_of_mem _ hq))]
      cases fixedProbe g r0 col0 with
      | none => rfl
      | some f =>
          have h0 : c0 ≠ c := hne (c0, r0, col0) (List.mem_cons_self _ _)
          rw [alookup_dictInsert, if_neg (fun hh => h0 hh.symm)]

theorem alookup_extractFixed_mem (g : Grid) :
    ∀ (l : List (String × Nat × Nat)) (acc : ResultMap) (c : String)
      (r col : Nat), (c, r, col) ∈ l → (l.map Prod.fst).Nodup →
      alookup (extractFixed g l acc) c =
        (match fixedProbe g r col with
         | some f => some f
         | none => alookup acc c) := by
  intro l
  induction l with
  | nil => intro acc c r col hmem _; cases hmem
  | cons e t ih =>
      intro acc c r col hmem hnd
      obtain ⟨c0, r0, col0⟩ := e
      rw [List.map_cons] at hnd
      have hcons := List.nodup_cons.mp hnd
      rw [extractFixed_cons]
      rcases List.mem_cons.mp hmem with heq | hmem'
      · rw [Prod.mk.injEq] at heq
        obtain ⟨hc, hrc⟩ := heq
        rw [Prod.mk.injEq] at hrc
        obtain ⟨hr, hcol⟩ := hrc
        subst hc; subst hr; subst hcol
        have hnot : ∀ q ∈ t, q.1 ≠ c := by
          intro q hq hh
          exact hcons.1 (List.mem_map.mpr ⟨q, hq, hh⟩)
        rw [alookup_extractFixed_not_mem g t _ c hnot]
        cases fixedProbe g r col with
        | none => rfl
        | some f => rw [alookup_dictInsert, if_pos rfl]
      · have hc0 : ¬ c0 = c := by
          intro hh
          exact hcons.1 (hh ▸ (List.mem_map_of_mem Prod.fst hmem' : c ∈ _))
        rw [ih _ c r col hmem' hcons.2]
        cases fixedProbe g r col with
        | some f =>
            cases fixedProbe g r0 col0 <;> rfl
        | none =>
            cases fixedProbe g r0 col0 with
            | none => rfl
            | some f0 => rw [alookup_dictInsert, if_neg (fun hh => hc0 hh.symm)]

theorem findBalanceGo_some (g : Grid) (code : String) (base : Nat) :
    ∀ (l : List Nat) (cv : String × String),
      findBalanceGo g code base l = some cv →
      cv.1 = code ∧ cv.2 ≠ "" ∧
        ∃ r raw, readCell g r 6 = some raw ∧
          cv.2 = preserve_number_formatting raw := by
  intro l
  induction l with
  | nil => intro cv h; cases h
  | cons o rest ih =>
      intro cv h
      rw [findBalanceGo_cons] at h
      cases hp : balanceProbe g (base + o) with
      | none =>
          rw [hp] at h
          exact ih cv h
      | some v =>
          rw [hp] at h
          injection h with h1
          unfold balanceProbe at hp
          cases hrc : readCell g (base + o) 6 with
          | none => rw [hrc] at hp; cases hp
          | some raw =>
              rw [hrc] at hp
              by_cases hf : preserve_number_formatting raw = ""
              · simp [hf] at hp
              · simp only [hf, if_neg hf] at hp
                injection hp with h2
                refine ⟨by rw [← h1], ?_, base + o, raw, hrc, ?_⟩
                · rw [← h1]
                  simp only []
                  rw [← h2]
                  exact hf
                · rw [← h1, ← h2]

theorem findBalanceGo_none (g : Grid) (code : String) (base : Nat) :
    ∀ l : List Nat, (∀ o ∈ l, readCell g (base + o) 6 = none) →
      findBalanceGo g code base l = none := by
  intro l
  induction l with
  | nil => intro _; rfl
  | cons o rest ih =>
      intro h
      rw [findBalanceGo_cons]
      have h0 : balanceProbe g (base + o) = none := by
        unfold balanceProbe
        rw [h o (List.mem_cons_self _ _)]
      rw [h0]
      exact ih (fun o' ho' => h o' (List.mem_cons_of_mem _ ho'))

theorem find_balance_code (g : Grid) (k : Cat) (st : AssetType)
    (cv : String × String) (h : find_balance_in_category g k st = some cv) :
    cv.1 = balanceColumnCode st k :=
  (findBalanceGo_some g (balanceColumnCode st k) k.baseRow k.searchOffsets cv h).1

theorem alookup_extractBalance_not_mem (g : Grid) (st : AssetType) :
    ∀ (l : List Cat) (acc : ResultMap) (c : String),
      (∀ k ∈ l, balanceColumnCode st k ≠ c) →
      alookup (extractBalance g st l acc) c = alookup acc c := by
  intro l
  induction l with
  | nil => intro acc c _; rfl
  | cons k t ih =>
      intro acc c hne
      rw [extractBalance_cons]
      rw [ih _ c (fun q hq => hne q (List.mem_cons_of_mem _ hq))]
      cases hfb : find_balance_in_category g k st with
      | none => rfl
      | some cv =>
          have hcode : cv.1 = balanceColumnCode st k := find_balance_code g k st cv hfb
          have h0 : cv.1 ≠ c := hcode ▸ hne k (List.mem_cons_self _ _)
          rw [alookup_dictInsert, if_neg (fun hh => h0 hh.symm)]

theorem alookup_extractBalance_mem (g : Grid) (st : AssetType) :
    ∀ (l : List Cat) (acc : ResultMap) (k : Cat), k ∈ l →
      (l.map (balanceColumnCode st)).Nodup →
      alookup (extractBalance g st l acc) (balanceColumnCode st k) =
        (match find_balance_in_category g k st with
         | some cv => some cv.2
         | none => alookup acc (balanceColumnCode st k)) := by
  intro l
  induction l with
  | nil => intro acc k hmem _; cases hmem
  | cons k0 t ih =>
      intro acc k hmem hnd
      rw [List.map_cons] at hnd
      have hcons := List.nodup_cons.mp hnd
      rw [extractBalance_cons]
      rcases List.mem_cons.mp hmem with heq | hmem'
      · subst heq
        have hnot : ∀ q ∈ t, balanceColumnCode st q ≠ balanceColumnCode st k := by
          intro q hq hh
          exact hcons.1 (hh ▸ List.mem_map_of_mem (balanceColumnCode st) hq)
        rw [alookup_extractBalance_not_mem g st t _ _ hnot]
        cases hfb : find_balance_in_category g k st with
        | none => rfl
        | some cv =>
            have hcode : cv.1 = balanceColumnCode st k :=
              find_balance_code g k st cv hfb
            rw [alookup_dictInsert, hcode, if_pos rfl]
      · have hne : ¬ balanceColumnCode st k0 = balanceColumnCode st k := by
          intro hh
          exact hcons.1
            (hh ▸ List.mem_map_of_mem (balanceColumnCode st) hmem')
        rw [ih _ k hmem' hcons.2]
        cases find_balance_in_category g k st with
        | some cv =>
            cases hfb0 : find_balance_in_category g k0 st <;> rfl
        | none =>
            cases hfb0 : find_balance_in_category g k0 st with
            | none => rfl
            | some cv0 =>
                have hcode0 : cv0.1 = balanceColumnCode st k0 :=
                  find_balance_code g k0 st cv0 hfb0
                rw [alookup_dictInsert, hcode0,
                  if_neg (fun hh => hne hh.symm)]

/-- C5: extraction is total and omission-only on short or malformed grids:
any fixed-coordinate field whose cell is out of bounds is absent from the
result, any in-bounds fixed field with a non-empty formatted value is still
extracted, and any balance category whose whole probe window is out of
bounds is absent from the result. -/
theorem c5_out_of_bounds_omitted (g : Grid) (st : AssetType) :
    (∀ (c : String) (r col : Nat), (c, r, col) ∈ relevantMappings st →
        readCell g r col = none →
        alookup (extract_from_sheet g st) c = none) ∧
    (∀ (c : String) (r col : Nat) (raw : Cell),
        (c, r, col) ∈ relevantMappings st → readCell g r col = some raw →
        preserve_number_formatting raw ≠ "" →
        alookup (extract_from_sheet g st) c
          = some (preserve_number_formatting raw)) ∧
    (∀ k : Cat, (∀ o ∈ Cat.searchOffsets k, readCell g (k.baseRow + o) 6 = none) →
        alookup (extract_from_sheet g st) (balanceColumnCode st k) = none) := by
  refine ⟨?_, ?_, ?_⟩
  · intro c r col hmem hnone
    have hnotbal : ∀ k ∈ categoryOrder, balanceColumnCode st k ≠ c :=
      fun k hk => fixed_keys_not_balance st (c, r, col) hmem k hk
    unfold extract_from_sheet
    rw [alookup_extractBalance_not_mem g st categoryOrder _ c hnotbal,
      alookup_extractFixed_mem g (relevantMappings st) [] c r col hmem
        (fixed_keys_nodup st)]
    have hpr : fixedProbe g r col = none := by
      unfold fixedProbe
      rw [hnone]
    rw [hpr]
    rfl
  · intro c r col raw hmem hsome hne
    have hnotbal : ∀ k ∈ categoryOrder, balanceColumnCode st k ≠ c :=
      fun k hk => fixed_keys_not_balance st (c, r, col) hmem k hk
    unfold extract_from_sheet
    rw [alookup_extractBalance_not_mem g st categoryOrder _ c hnotbal,
      alookup_extractFixed_mem g (relevantMappings st) [] c r col hmem
        (fixed_keys_nodup st)]
    have hpr : fixedProbe g r col = some (preserve_number_formatting raw) := by
      unfold fixedProbe
      rw [hsome]
      simp [hne]
    rw [hpr]
  · intro k hallnone
    have hfbnone : find_balance_in_category g k st = none :=
      findBalanceGo_none g (balanceColumnCode st k) k.baseRow
        k.searchOffsets hallnone
    unfold extract_from_sheet
    rw [alookup_extractBalance_mem g st categoryOrder _ k
      (cat_mem_categoryOrder k) (balance_codes_nodup st), hfbnone]
    have hnotfix : ∀ e ∈ relevantMappings st, e.1 ≠ balanceColumnCode st k :=
      fun e he hh =>
        fixed_keys_not_balance st e he k (cat_mem_categoryOrder k) hh.symm
    rw [alookup_extractFixed_not_mem g _ [] _ hnotfix]
    rfl

/-- Witness for C5: on the empty grid the fixed field at `(13, 4)` is
absent from the ETF extraction result. -/
theorem c5_witness :
    alookup (extract_from_sheet [] AssetType.ETF) "JTMD.ETF.SAL.PROP.M" = none :=
  (c5_out_of_bounds_omitted [] AssetType.ETF).1
    "JTMD.ETF.SAL.PROP.M" 13 4 (by decide) rfl

theorem mem_dictInsert (m : ResultMap) (k v : String) (q : String × String)
    (h : q ∈ dictInsert m k v) : q ∈ m ∨ q = (k, v) := by
  rw [dictInsert_eq] at h
  by_cases hk : hasKey m k = true
  · rw [if_pos hk] at h
    rcases List.mem_map.mp h with ⟨p, hp, hrepl⟩
    by_cases h1 : p.1 = k
    · right
      rw [← hrepl]
      simp [replKV, h1]
    · left
      have hqp : replKV k v p = p := by simp [replKV, h1]
      rw [← hrepl, hqp]
      exact hp
  · rw [if_neg hk] at h
    rcases List.mem_append.mp h with h1 | h2
    · left; exact h1
    · right; simpa using h2

theorem fixedProbe_some {g : Grid} {r c : Nat} {f : String}
    (h : fixedProbe g r c = some f) :
    f ≠ "" ∧ ∃ raw, readCell g r c = some raw ∧
      f = preserve_number_formatting raw := by
  unfold fixedProbe at h
  cases hrc : readCell g r c with
  | none => rw [hrc] at h; cases h
  | some raw =>
      rw [hrc] at h
      by_cases hf : preserve_number_formatting raw = ""
      · simp [hf] at h
      · simp only [if_neg hf] at h
        injection h with h2
        exact ⟨h2 ▸ hf, raw, rfl, h2.symm⟩

theorem extractFixed_forall (g : Grid) (P : String × String → Prop) :
    ∀ (l : List (String × Nat × Nat)) (acc : ResultMap),
      (∀ q ∈ acc, P q) →
      (∀ e ∈ l, ∀ f, fixedProbe g e.2.1 e.2.2 = some f → P (e.1, f)) →
      ∀ q ∈ extractFixed g l acc, P q := by
  intro l
  induction l with
  | nil => intro acc hacc _ q hq; exact hacc q hq
  | cons e t ih =>
      intro acc hacc hins q hq
      obtain ⟨c0, r0, col0⟩ := e
      rw [extractFixed_cons] at hq
      refine ih _ ?_ (fun e' he' => hins e' (List.mem_cons_of_mem _ he')) q hq
      intro q' hq'
      cases hpr : fixedProbe g r0 col0 with
      | none =>
          rw [hpr] at hq'
          exact hacc q' hq'
      | some f =>
          rw [hpr] at hq'
          rcases mem_dictInsert acc c0 f q' hq' with hin | heq
          · exact hacc q' hin
          · rw [heq]
            exact hins (c0, r0, col0) (List.mem_cons_self _ _) f hpr

theorem extractBalance_forall (g : Grid) (st : AssetType)
    (P : String × String → Prop) :
    ∀ (l : List Cat) (acc : ResultMap),
      (∀ q ∈ acc, P q) →
      (∀ k ∈ l, ∀ cv, find_balance_in_category g k st = some cv → P cv) →
      ∀ q ∈ extractBalance g st l acc, P q := by
  intro l
  induction l with
  | nil => intro acc hacc _ q hq; exact hacc q hq
  | cons k t ih =>
      intro acc hacc hins q hq
      rw [extractBalance_cons] at hq
      refine ih _ ?_ (fun k' hk' => hins k' (List.mem_cons_of_mem _ hk')) q hq
      intro q' hq'
      cases hfb : find_balance_in_category g k st with
      | none =>
          rw [hfb] at hq'
          exact hacc q' hq'
      | some cv =>
          rw [hfb] at hq'
          rcases mem_dictInsert acc cv.1 cv.2 q' hq' with hin | heq
          · exact hacc q' hin
          · rw [heq]
            exact hins k (List.mem_cons_self _ _) cv hfb

/-- C6: every value in the extraction result is the stringified, trimmed
rendering of some in-bounds raw cell and is non-empty — NaN/None, empty and
whitespace-only cells are never emitted. -/
theorem c6_values_formatted_nonempty (g : Grid) (st : AssetType) :
    ∀ q ∈ extract_from_sheet g st, q.2 ≠ "" ∧
      ∃ (r c : Nat) (raw : Cell), readCell g r c = some raw ∧
        q.2 = preserve_number_formatting raw := by
  intro q hq
  unfold extract_from_sheet at hq
  refine extractBalance_forall g st
    (fun q => q.2 ≠ "" ∧ ∃ (r c : Nat) (raw : Cell),
      readCell g r c = some raw ∧ q.2 = preserve_number_formatting raw)
    categoryOrder _ ?_ ?_ q hq
  · intro q' hq'
    refine extractFixed_forall g
      (fun q => q.2 ≠ "" ∧ ∃ (r c : Nat) (raw : Cell),
        readCell g r c = some raw ∧ q.2 = preserve_number_formatting raw)
      (relevantMappings st) []
      (by intro q'' hq''; cases hq'') ?_ q' hq'
    intro e _ f hpf
    obtain ⟨hne, raw, hrc, hform⟩ := fixedProbe_some hpf
    exact ⟨hne, e.2.1, e.2.2, raw, hrc, hform⟩
  · intro k _ cv hfb
    obtain ⟨_, hne, r, raw, hrc, hform⟩ :=
      findBalanceGo_some g (balanceColumnCode st k) k.baseRow
        k.searchOffsets cv hfb
    exact ⟨hne, r, 6, raw, hrc, hform⟩

/-- Witness for C6: the value extracted from `gridW6` is the trimmed
rendering of its raw cell and is non-empty. -/
theorem c6_witness :
    ("JTMD.ETF.SAL.PROP.M", "7").2 ≠ "" ∧
      ∃ (r c : Nat) (raw : Cell), readCell gridW6 r c = some raw ∧
        ("JTMD.ETF.SAL.PROP.M", "7").2 = preserve_number_formatting raw :=
  c6_values_formatted_nonempty gridW6 AssetType.ETF
    ("JTMD.ETF.SAL.PROP.M", "7") (by decide)

/-- C8: every indicator code in an extraction result — fixed-coordinate and
dynamically built balance codes alike — belongs to the build-time catalog. -/
theorem c8_codes_in_catalog (g : Grid) (st : AssetType) :
    ∀ q ∈ extract_from_sheet g st, q.1 ∈ column_mapping.map Prod.fst := by
  intro q hq
  unfold extract_from_sheet at hq
  refine extractBalance_forall g st
    (fun q => q.1 ∈ column_mapping.map Prod.fst) categoryOrder _ ?_ ?_ q hq
  · intro q' hq'
    refine extractFixed_forall g
      (fun q => q.1 ∈ column_mapping.map Prod.fst) (relevantMappings st) []
      (by intro q'' hq''; cases hq'') ?_ q' hq'
    intro e he f _
    exact fixed_keys_in_catalog st e he
  · intro k hk cv hfb
    rw [find_balance_code g k st cv hfb]
    exact balance_codes_in_catalog st k hk

/-- Witness for C8 at a concrete grid and the code it emits. -/
theorem c8_witness :
    ("JTMD.ETF.SAL.PROP.M", "7").1 ∈ column_mapping.map Prod.fst :=
  c8_codes_in_catalog gridW6 AssetType.ETF
    ("JTMD.ETF.SAL.PROP.M", "7") (by decide)

theorem lexLe_total : ∀ a b : List Char, lexLe a b = true ∨ lexLe b a = true := by
  intro a
  induction a with
  | nil => intro b; left; rfl
  | cons x xs ih =>
      intro b
      cases b with
      | nil => right; rfl
      | cons y ys =>
          by_cases h1 : x.toNat < y.toNat
          · left; simp [lexLe, h1]
          · by_cases h2 : y.toNat < x.toNat
            · right; simp [lexLe, h2]
            · rcases ih ys with h | h
              · left; simp [lexLe, h1, h2, h]
              · right; simp [lexLe, h1, h2, h]

theorem lexLe_trans : ∀ a b c : List Char,
    lexLe a b = true → lexLe b c = true → lexLe a c = true := by
  intro a
  induction a with
  | nil => intro b c _ _; rfl
  | cons x xs ih =>
      intro b c hab hbc
      cases b with
      | nil => simp [lexLe] at hab
      | cons y ys =>
          cases c with
          | nil => simp [lexLe] at hbc
          | cons z zs =>
              simp only [lexLe] at hab hbc ⊢
              by_cases hxy : x.toNat < y.toNat <;>
                by_cases hyx : y.toNat < x.toNat <;>
                by_cases hyz : y.toNat < z.toNat <;>
                by_cases hzy : z.toNat < y.toNat <;>
                simp [hxy, hyx, hyz, hzy] at hab hbc ⊢ <;>
                first
                  | (exact Or.inl (by omega))
                  | (exact Or.inr ⟨by omega, ih ys zs hab hbc⟩)

theorem mem_sortInsert (x y : String × ResultMap) :
    ∀ l : List (String × ResultMap),
      (y ∈ sortInsert x l ↔ y = x ∨ y ∈ l) := by
  intro l
  induction l with
  | nil => simp [sortInsert]
  | cons z t ih =>
      by_cases hb : lexLe z.1.data x.1.data = true <;>
        simp [sortInsert, hb, ih] <;> tauto

theorem sortInsert_sorted (x : String × ResultMap) :
    ∀ l : List (String × ResultMap),
      List.Pairwise (fun a b => lexLe a.1.data b.1.data = true) l →
      List.Pairwise (fun a b => lexLe a.1.data b.1.data = true)
        (sortInsert x l) := by
  intro l
  induction l with
  | nil =>
      intro _
      simp [sortInsert]
  | cons y t ih =>
      intro hp
      obtain ⟨hyall, hpt⟩ := List.pairwise_cons.mp hp
      by_cases hb : lexLe y.1.data x.1.data = true
      · simp only [sortInsert, if_pos hb]
        refine List.pairwise_cons.mpr ⟨?_, ih hpt⟩
        intro z hz
        rcases (mem_sortInsert x z t).mp hz with heq | hz'
        · rw [heq]; exact hb
        · exact hyall z hz'
      · simp only [sortInsert, if_neg hb]
        have hxy : lexLe x.1.data y.1.data = true := by
          rcases lexLe_total x.1.data y.1.data with h | h
          · exact h
          · exact absurd h hb
        refine List.pairwise_cons.mpr ⟨?_, hp⟩
        intro z hz
        rcases List.mem_cons.mp hz with heq | hz'
        · rw [heq]; exact hxy
        · exact lexLe_trans _ _ _ hxy (hyall z hz')

theorem sortInsert_perm (x : String × ResultMap) :
    ∀ l : List (String × ResultMap), (sortInsert x l).Perm (x :: l) := by
  intro l
  induction l with
  | nil => exact List.Perm.refl _
  | cons y t ih =>
      by_cases hb : lexLe y.1.data x.1.data = true
      · simp only [sortInsert, if_pos hb]
        exact (ih.cons y).trans (List.Perm.swap x y t)
      · simp only [sortInsert, if_neg hb]
        exact List.Perm.refl _

theorem foldl_sortInsert_perm :
    ∀ (t : Dataset) (acc : List (String × ResultMap)),
      (t.foldl (fun acc x => sortInsert x acc) acc).Perm (acc ++ t) := by
  intro t
  induction t with
  | nil => intro acc; simp
  | cons x ts ih =>
      intro acc
      have h1 : ((x :: ts : Dataset).foldl (fun acc x => sortInsert x acc) acc)
          = ts.foldl (fun acc x => sortInsert x acc) (sortInsert x acc) := rfl
      rw [h1]
      refine (ih (sortInsert x acc)).trans ?_
      refine (List.Perm.append_right ts (sortInsert_perm x acc)).trans ?_
      exact List.perm_middle.symm

theorem sortByPeriod_perm (ds : Dataset) : (sortByPeriod ds).Perm ds := by
  have h := foldl_sortInsert_perm ds []
  simpa [sortByPeriod] using h

theorem foldl_sortInsert_sorted :
    ∀ (t : Dataset) (acc : List (String × ResultMap)),
      List.Pairwise (fun a b => lexLe a.1.data b.1.data = true) acc →
      List.Pairwise (fun a b => lexLe a.1.data b.1.data = true)
        (t.foldl (fun acc x => sortInsert x acc) acc) := by
  intro t
  induction t with
  | nil => intro acc h; exact h
  | cons x ts ih =>
      intro acc h
      exact ih (sortInsert x acc) (sortInsert_sorted x acc h)

theorem sortByPeriod_sorted (ds : Dataset) :
    List.Pairwise (fun a b => lexLe a.1.data b.1.data = true)
      (sortByPeriod ds) :=
  foldl_sortInsert_sorted ds [] List.Pairwise.nil

/-- C7: for a non-empty dataset (the source raises on an empty one), the
data table is the code header row, the description header row, then
exactly one row per period — periods in ascending lexicographic order,
data cells in catalog column order, and a blank for every catalog code
absent from that period's result map. -/
theorem c7_data_table_shape (ds : Dataset) (_hne : ds ≠ []) :
    create_output_csv ds =
      ("" :: column_mapping.map (fun cd => cd.1)) ::
      ("" :: column_mapping.map (fun cd => cd.2)) ::
      (sortByPeriod ds).map (fun e =>
        e.1 :: column_mapping.map (fun col => (alookup e.2 col.1).getD "")) ∧
    (sortByPeriod ds).Perm ds ∧
    List.Pairwise (fun a b => lexLe a.1.data b.1.data = true)
      (sortByPeriod ds) ∧
    (create_output_csv ds).length = 2 + ds.length := by
  refine ⟨rfl, sortByPeriod_perm ds, sortByPeriod_sorted ds, ?_⟩
  have hlen : (sortByPeriod ds).length = ds.length :=
    (sortByPeriod_perm ds).length_eq
  simp [create_output_csv, hlen]
  omega

/-- Witness for C7 at a concrete two-period dataset. -/
theorem c7_witness :
    (create_output_csv [("2024-04", [("JTMD.ETF.SAL.PROP.M", "7")]),
      ("2024-03", [])]).length = 4 :=
  (c7_data_table_shape
    [("2024-04", [("JTMD.ETF.SAL.PROP.M", "7")]), ("2024-03", [])]
    (by decide)).2.2.2

theorem process_excel_file_fst (name : String) (l : Option Grid)
    (now : String) :
    (process_excel_file name l now).1 = extract_period_from_filename name now := by
  cases l <;> rfl

theorem runDataset_foldl_preserves (now : String) :
    ∀ (files : List (String × Option Grid)) (acc : Dataset) (q : String),
      hasKey acc q = true →
      hasKey (files.foldl (fun all f =>
        let pd := process_excel_file f.1 f.2 now
        mergeFile all pd.1 pd.2) acc) q = true := by
  intro files
  induction files with
  | nil => intro acc q h; exact h
  | cons f t ih =>
      intro acc q h
      exact ih _ q (mergeFile_preserves_key acc _ _ q h)

theorem runDataset_foldl_mem (now : String) :
    ∀ (files : List (String × Option Grid)) (acc : Dataset),
      ∀ f ∈ files,
      hasKey (files.foldl (fun all f =>
        let pd := process_excel_file f.1 f.2 now
        mergeFile all pd.1 pd.2) acc)
        (extract_period_from_filename f.1 now) = true := by
  intro files
  induction files with
  | nil => intro acc f hf; cases hf
  | cons f0 t ih =>
      intro acc f hf
      rcases List.mem_cons.mp hf with heq | hf'
      · subst heq
        refine runDataset_foldl_preserves now t _ _ ?_
        show hasKey (mergeFile acc (process_excel_file f.1 f.2 now).1
            (process_excel_file f.1 f.2 now).2)
          (extract_period_from_filename f.1 now) = true
        rw [process_excel_file_fst]
        exact mergeFile_hasKey_self acc _ _
      · exact ih _ f hf'

/-- C10: with at least one enumerated workbook file the run always
produces its artifacts: a file whose loading fails still contributes its
derived period key with an empty result map, every file's period key is
present in the accumulated dataset, and the empty-dataset abort branch is
never taken. -/
theorem c10_run_produces_artifacts (files : List (String × Option Grid))
    (now stamp genTime : String) (h : files ≠ []) :
    (run files now stamp genTime).isSome = true ∧
    (∀ name, process_excel_file name none now
        = (extract_period_from_filename name now, [])) ∧
    (∀ f ∈ files, hasKey (runDataset files now)
        (extract_period_from_filename f.1 now) = true) := by
  have hmem : ∀ f ∈ files, hasKey (runDataset files now)
      (extract_period_from_filename f.1 now) = true :=
    fun f hf => runDataset_foldl_mem now files [] f hf
  refine ⟨?_, fun name => rfl, hmem⟩
  obtain ⟨f0, t, rfl⟩ : ∃ f0 t, files = f0 :: t := by
    cases files with
    | nil => exact absurd rfl h
    | cons a b => exact ⟨a, b, rfl⟩
  have hk := hmem f0 (List.mem_cons_self _ _)
  unfold run
  rw [if_neg (by simp : ¬ ((f0 :: t).isEmpty = true))]
  cases hds : runDataset (f0 :: t) now with
  | nil =>
      rw [hds] at hk
      simp [hasKey] at hk
  | cons e es =>
      simp only [hds, List.isEmpty_cons]
      rfl

/-- Witness for C10: one failing file still yields a run that produces the
artifacts. -/
theorem c10_witness :
    (run [("broken.xls", (none : Option Grid))] "2025-10" "20251012"
      "2025-10-12T00:00:00").isSome = true :=
  (c10_run_produces_artifacts [("broken.xls", none)] "2025-10" "20251012"
    "2025-10-12T00:00:00" (by decide)).1

end JTMD
